import Mathlib

set_option linter.unusedVariables false

/-!
Shallow embedding of the snake arcade game in src/snake_game.py: the Snake
class, the spawning helpers, and the tick update of the SnakeGame class.
Rendering and input polling are not modelled; the global random number
generator is modelled by an ambient stream of naturals together with an
index into it, and an exception escaping a call (random.choice on an empty
sequence raises IndexError) is modelled by the value none.
-/

namespace SnakeCodex

/-- Positions are integer pixel coordinates, as in the Python source. -/
abbrev Pos := Int × Int

/-- Embedding of the Snake class: the mirror coordinates x, y and the size
from GameObject, the segment list (head first), the current direction
vector (dx, dy) and the pending growth counter. -/
structure Snake where
  x : Int
  y : Int
  size : Int
  segments : List Pos
  dx : Int
  dy : Int
  pending_growth : Nat
deriving DecidableEq

/-- Snake.__init__: one segment at (x, y), moving right by one cell. -/
def Snake.init (x y size : Int) : Snake :=
  { x := x, y := y, size := size, segments := [(x, y)], dx := size, dy := 0,
    pending_growth := 0 }

/-- Snake.set_direction: no-op on an empty snake and on the exact reverse of
the current direction. -/
def Snake.set_direction (s : Snake) (dx dy : Int) : Snake :=
  if s.segments = [] then s
  else if dx = -s.dx ∧ dy = -s.dy then s
  else { s with dx := dx, dy := dy }

/-- Snake.move: wrap the new head into bounds by modulo arithmetic, prepend
it, then either consume one unit of pending growth (keeping the tail) or
pop the tail; finally refresh the mirror coordinates from the new head. -/
def Snake.move (s : Snake) (width height : Int) : Snake :=
  match s.segments with
  | [] => s
  | (head_x, head_y) :: _ =>
    let new_x := (head_x + s.dx) % width
    let new_y := (head_y + s.dy) % height
    let withHead := (new_x, new_y) :: s.segments
    let s1 :=
      if 0 < s.pending_growth then
        { s with segments := withHead, pending_growth := s.pending_growth - 1 }
      else
        { s with segments := withHead.dropLast }
    match s1.segments with
    | [] => s1
    | (hx, hy) :: _ => { s1 with x := hx, y := hy }

/-- Snake.grow: defer one unit of growth to the next move. -/
def Snake.grow (s : Snake) : Snake :=
  { s with pending_growth := s.pending_growth + 1 }

/-- Snake.shorten: pop the tail segment if any, then refresh the mirror
coordinates from the (unchanged) head if the snake is still nonempty. -/
def Snake.shorten (s : Snake) : Snake :=
  let s1 := { s with segments := s.segments.dropLast }
  match s1.segments with
  | [] => s1
  | (hx, hy) :: _ => { s1 with x := hx, y := hy }

/-- Snake.collides_with_self: head occurs again in the rest of the body. -/
def Snake.collides_with_self (s : Snake) : Bool :=
  if s.segments.length < 2 then false
  else
    match s.segments with
    | [] => false
    | h :: t => decide (h ∈ t)

/-- SnakeGame.WIDTH. -/
def WIDTH : Nat := 640

/-- SnakeGame.HEIGHT. -/
def HEIGHT : Nat := 490

/-- SnakeGame.CELL. -/
def CELL : Nat := 20

/-- SnakeGame.ROCK_COUNT. -/
def ROCK_COUNT : Nat := 3

/-- SnakeGame.MOVE_INTERVAL_MS. -/
def MOVE_INTERVAL_MS : Nat := 120

/-- SnakeGame.play_height, the gameplay area height snapped to the grid. -/
def play_height : Nat := (HEIGHT / CELL) * CELL

/-- Python range(0, stop, step) for a positive step. -/
def rangeStep (stop step : Nat) : List Nat :=
  (List.range ((stop + step - 1) / step)).map (fun i => i * step)

/-- SnakeGame.grid_positions: every lattice cell of the gameplay area, x
outer, y inner, as built by the comprehension in __init__. -/
def grid_positions : List Pos :=
  (rangeStep WIDTH CELL).flatMap (fun gx =>
    (rangeStep play_height CELL).map (fun gy => ((gx : Int), (gy : Int))))

/-- random.choice over a list: the ambient stream str supplies a natural at
index k, reduced modulo the length; an empty sequence raises (none). -/
def choice (str : Nat → Nat) (l : List Pos) (k : Nat) : Option (Pos × Nat) :=
  match l with
  | [] => none
  | p :: _ => some (l.getD (str k % l.length) p, k + 1)

/-- SnakeGame._random_free_position: choose among grid cells not blocked. -/
def random_free_position (str : Nat → Nat) (blocked : List Pos) (k : Nat) :
    Option (Pos × Nat) :=
  choice str (grid_positions.filter (fun p => decide (p ∉ blocked))) k

/-- SnakeGame._spawn_apple: blocked by the snake body and the rocks. -/
def spawn_apple (str : Nat → Nat) (snake : Snake) (rocks : List Pos) (k : Nat) :
    Option (Pos × Nat) :=
  random_free_position str (snake.segments ++ rocks) k

/-- The rock top-up loop shared by _spawn_rocks and _ensure_rock_count: add
n rocks one at a time, each at a random free position, extending the
blocked set as it goes. -/
def addRocks (str : Nat → Nat) : Nat → List Pos → List Pos → Nat →
    Option (List Pos × Nat)
  | 0, _, rocks, k => some (rocks, k)
  | n + 1, blocked, rocks, k =>
    match random_free_position str blocked k with
    | none => none
    | some (p, k1) => addRocks str n (p :: blocked) (rocks ++ [p]) k1

/-- SnakeGame._spawn_rocks: ROCK_COUNT rocks, blocked by snake and apple. -/
def spawn_rocks (str : Nat → Nat) (snake : Snake) (apple : Pos) (k : Nat) :
    Option (List Pos × Nat) :=
  addRocks str ROCK_COUNT (snake.segments ++ [apple]) [] k

/-- SnakeGame._ensure_rock_count: top the rock list up to ROCK_COUNT
(blocked by snake, apple and existing rocks), then truncate any excess. -/
def ensure_rock_count (str : Nat → Nat) (snake : Snake) (apple : Pos)
    (rocks : List Pos) (k : Nat) : Option (List Pos × Nat) :=
  match addRocks str (ROCK_COUNT - rocks.length) (snake.segments ++ apple :: rocks)
      rocks k with
  | none => none
  | some (rocks1, k1) => some (rocks1.take ROCK_COUNT, k1)

/-- Game state: the fields of SnakeGame that the tick update touches (rocks
are kept as their positions; size and color are fixed constants). -/
structure GState where
  snake : Snake
  apple : Pos
  rocks : List Pos
  score : Nat
  running : Bool
deriving DecidableEq

/-- SnakeGame._create_snake: center snapped to the grid. -/
def create_snake : Snake :=
  Snake.init ((WIDTH / 2 / CELL) * CELL : Nat) ((play_height / 2 / CELL) * CELL : Nat)
    (CELL : Nat)

/-- SnakeGame._reset_objects: fresh snake, apple spawned against the empty
rock list, then a full set of rocks. -/
def reset_objects (str : Nat → Nat) (g : GState) (k : Nat) : Option (GState × Nat) :=
  let snake := create_snake
  match spawn_apple str snake [] k with
  | none => none
  | some (apple, k1) =>
    match spawn_rocks str snake apple k1 with
    | none => none
    | some (rocks, k2) =>
      some ({ g with snake := snake, apple := apple, rocks := rocks }, k2)

/-- SnakeGame._reset_round: zero the score and rebuild the objects (the
game-over overlay and the timer are presentation concerns). -/
def reset_round (str : Nat → Nat) (g : GState) (k : Nat) : Option (GState × Nat) :=
  reset_objects str { g with score := 0 } k

/-- SnakeGame._handle_rock_collision: if the head sits on a rock, shorten
the snake, pop that rock and top the rock list back up. -/
def handle_rock_collision (str : Nat → Nat) (g : GState) (k : Nat) :
    Option (GState × Nat) :=
  match g.snake.segments with
  | [] => some (g, k)
  | head :: _ =>
    match g.rocks.findIdx? (fun p => decide (p = head)) with
    | none => some (g, k)
    | some i =>
      let snake1 := g.snake.shorten
      let rocks1 := g.rocks.eraseIdx i
      match ensure_rock_count str snake1 g.apple rocks1 k with
      | none => none
      | some (rocks2, k2) => some ({ g with snake := snake1, rocks := rocks2 }, k2)

/-- pygame Rect.colliderect: strict overlap on both axes. -/
def colliderect (x1 y1 w1 h1 x2 y2 w2 h2 : Int) : Bool :=
  decide (x1 < x2 + w2) && decide (x2 < x1 + w1) &&
    decide (y1 < y2 + h2) && decide (y2 < y1 + h1)

/-- SnakeGame._update past the tick-interval gate: move, resolve the rock
collision, detect round termination, resolve the apple, top rocks up. -/
def update (str : Nat → Nat) (g : GState) (k : Nat) : Option (GState × Nat) :=
  let g1 := { g with snake := g.snake.move (WIDTH : Nat) (play_height : Nat) }
  match handle_rock_collision str g1 k with
  | none => none
  | some (g2, k2) =>
    if g2.snake.segments = [] then reset_round str g2 k2
    else if g2.snake.collides_with_self then reset_round str g2 k2
    else
      let eats := colliderect g2.snake.x g2.snake.y g2.snake.size g2.snake.size
        g2.apple.1 g2.apple.2 (CELL : Nat) (CELL : Nat)
      let step1 : Option (GState × Nat) :=
        if eats then
          let snake3 := g2.snake.grow
          match spawn_apple str snake3 g2.rocks k2 with
          | none => none
          | some (apple3, k3) =>
            some ({ g2 with snake := snake3, score := g2.score + 1,
                            apple := apple3 }, k3)
        else some (g2, k2)
      match step1 with
      | none => none
      | some (g3, k3) =>
        match ensure_rock_count str g3.snake g3.apple g3.rocks k3 with
        | none => none
        | some (rocks4, k4) => some ({ g3 with rocks := rocks4 }, k4)

/-- Direction commands produced by SnakeGame._handle_input. -/
inductive Command where
  | up
  | down
  | left
  | right
deriving DecidableEq

/-- The set_direction call SnakeGame._handle_input issues for one key. -/
def apply_command (s : Snake) : Command → Snake
  | Command.up => s.set_direction 0 (-(CELL : Int))
  | Command.down => s.set_direction 0 (CELL : Nat)
  | Command.left => s.set_direction (-(CELL : Int)) 0
  | Command.right => s.set_direction (CELL : Nat) 0

/-- SnakeGame._handle_input over a burst of key events between two ticks. -/
def handle_input (s : Snake) (cs : List Command) : Snake :=
  cs.foldl apply_command s

/-- The mirror coordinates x, y agree with the head segment (holds of every
snake the game ever exposes to a collision check). -/
def headOK (s : Snake) : Prop :=
  ∀ p t, s.segments = p :: t → p = (s.x, s.y)

/-- The apple sits on no snake segment and no rock. -/
def appleInv (g : GState) : Prop :=
  g.apple ∉ g.snake.segments ∧ g.apple ∉ g.rocks

/-- A concrete random stream for witnesses: always pick index 0. -/
def strW : Nat → Nat := fun _ => 0

/-- A small mid-game state: snake of one segment at the center, apple in the
corner, three rocks away from the snake's path. -/
def gW : GState :=
  { snake := Snake.init 320 240 20, apple := (0, 0),
    rocks := [(100, 100), (200, 200), (300, 300)], score := 0, running := true }

/-- The state gW one tick later: the snake advanced one cell right. -/
def gW2 : GState :=
  { snake := { x := 340, y := 240, size := 20, segments := [(340, 240)],
               dx := 20, dy := 0, pending_growth := 0 },
    apple := (0, 0), rocks := [(100, 100), (200, 200), (300, 300)], score := 0,
    running := true }

/-- A state whose snake (length 2, no pending growth) is about to move onto
the rock at (320, 240). -/
def gC1 : GState :=
  { snake := { x := 300, y := 240, size := 20, segments := [(300, 240), (280, 240)],
               dx := 20, dy := 0, pending_growth := 0 },
    apple := (0, 0), rocks := [(320, 240), (100, 100), (200, 200)], score := 0,
    running := true }

/-- The state gC1 after the move and the rock collision resolved: the snake
lost a segment and the struck rock was recycled to (0, 20). -/
def gC1post : GState :=
  { snake := { x := 320, y := 240, size := 20, segments := [(320, 240)],
               dx := 20, dy := 0, pending_growth := 0 },
    apple := (0, 0), rocks := [(100, 100), (200, 200), (0, 20)], score := 0,
    running := true }

/-- The state gW after a round reset driven by the stream strW. -/
def gWreset : GState :=
  { snake := { x := 320, y := 240, size := 20, segments := [(320, 240)],
               dx := 20, dy := 0, pending_growth := 0 },
    apple := (0, 0), rocks := [(0, 20), (0, 40), (0, 60)], score := 0,
    running := true }

/-- A state whose snake body covers the whole grid; after its head wraps
onto the rock at (0, 460), no free cell is left for the rock top-up. -/
def gFull : GState :=
  { snake := { x := 620, y := 460, size := 20, segments := (620, 460) :: grid_positions,
               dx := 20, dy := 0, pending_growth := 0 },
    apple := (620, 440), rocks := [(0, 460), (0, 0), (20, 0)], score := 0,
    running := true }

/-- A one-segment snake with one unit of pending growth. -/
def sC6 : Snake :=
  { Snake.init 0 0 20 with pending_growth := 1 }

/-- Concrete snakes for witnesses. -/
def sW6 : Snake := Snake.init 100 100 20

/-- A one-segment snake heading right at the canonical start. -/
def sW7 : Snake := Snake.init 320 240 20

/-- A one-segment snake heading right, one cell from the right edge. -/
def sW10 : Snake := Snake.init 620 240 20

/-! Helper lemmas about the Snake operations. -/

theorem Snake.grow_segments (s : Snake) : s.grow.segments = s.segments := rfl

theorem Snake.grow_size (s : Snake) : s.grow.size = s.size := rfl

theorem Snake.shorten_segments (s : Snake) : s.shorten.segments = s.segments.dropLast := by
  unfold Snake.shorten
  cases h : s.segments.dropLast with
  | nil => simp [h]
  | cons p t => obtain ⟨hx, hy⟩ := p; simp [h]

theorem Snake.shorten_size (s : Snake) : s.shorten.size = s.size := by
  unfold Snake.shorten
  cases h : s.segments.dropLast with
  | nil => simp [h]
  | cons p t => obtain ⟨hx, hy⟩ := p; simp [h]

theorem Snake.shorten_headOK (s : Snake) : headOK s.shorten := by
  intro p t hpt
  rw [Snake.shorten_segments] at hpt
  unfold Snake.shorten
  simp only [hpt]

theorem Snake.move_nil (s : Snake) (w h : Int) (hs : s.segments = []) :
    s.move w h = s := by
  unfold Snake.move
  rw [hs]

theorem Snake.move_eq_keep (s : Snake) (w h : Int) (hx hy : Int) (t : List Pos)
    (hs : s.segments = (hx, hy) :: t) (hp : 0 < s.pending_growth) :
    s.move w h =
      { s with x := (hx + s.dx) % w, y := (hy + s.dy) % h,
               segments := ((hx + s.dx) % w, (hy + s.dy) % h) :: s.segments,
               pending_growth := s.pending_growth - 1 } := by
  unfold Snake.move
  rw [hs]
  simp only [if_pos hp, hs]

theorem Snake.move_eq_pop (s : Snake) (w h : Int) (hx hy : Int) (t : List Pos)
    (hs : s.segments = (hx, hy) :: t) (hp : s.pending_growth = 0) :
    s.move w h =
      { s with x := (hx + s.dx) % w, y := (hy + s.dy) % h,
               segments := ((hx + s.dx) % w, (hy + s.dy) % h) :: ((hx, hy) :: t).dropLast } := by
  unfold Snake.move
  rw [hs]
  simp only [hp, Nat.lt_irrefl, if_false, hs,
    List.dropLast_cons_of_ne_nil (List.cons_ne_nil (hx, hy) t)]

theorem Snake.move_head (s : Snake) (w h : Int) (hx hy : Int) (t : List Pos)
    (hs : s.segments = (hx, hy) :: t) :
    ∃ t1, (s.move w h).segments = ((hx + s.dx) % w, (hy + s.dy) % h) :: t1 := by
  rcases Nat.eq_zero_or_pos s.pending_growth with hp | hp
  · exact ⟨((hx, hy) :: t).dropLast, by rw [Snake.move_eq_pop s w h hx hy t hs hp]⟩
  · exact ⟨s.segments, by rw [Snake.move_eq_keep s w h hx hy t hs hp]⟩

theorem Snake.move_mem (s : Snake) (w h : Int) (hx hy : Int) (t : List Pos)
    (hs : s.segments = (hx, hy) :: t) :
    ∀ a ∈ (s.move w h).segments,
      a = ((hx + s.dx) % w, (hy + s.dy) % h) ∨ a ∈ s.segments := by
  intro a ha
  rcases Nat.eq_zero_or_pos s.pending_growth with hp | hp
  · rw [Snake.move_eq_pop s w h hx hy t hs hp] at ha
    simp only [List.mem_cons] at ha
    rcases ha with ha | ha
    · exact Or.inl ha
    · exact Or.inr (by rw [hs]; exact List.dropLast_subset _ ha)
  · rw [Snake.move_eq_keep s w h hx hy t hs hp] at ha
    simp only [List.mem_cons] at ha
    rcases ha with ha | ha
    · exact Or.inl ha
    · exact Or.inr ha

theorem Snake.move_xy (s : Snake) (w h : Int) (hx hy : Int) (t : List Pos)
    (hs : s.segments = (hx, hy) :: t) :
    (s.move w h).x = (hx + s.dx) % w ∧ (s.move w h).y = (hy + s.dy) % h := by
  rcases Nat.eq_zero_or_pos s.pending_growth with hp | hp
  · rw [Snake.move_eq_pop s w h hx hy t hs hp]
    exact ⟨rfl, rfl⟩
  · rw [Snake.move_eq_keep s w h hx hy t hs hp]
    exact ⟨rfl, rfl⟩

theorem Snake.move_headOK (s : Snake) (w h : Int) : headOK (s.move w h) := by
  intro p t1 hpt
  cases hseg : s.segments with
  | nil =>
    rw [Snake.move_nil s w h hseg, hseg] at hpt
    exact absurd hpt.symm (List.cons_ne_nil p t1)
  | cons q t =>
    obtain ⟨hx, hy⟩ := q
    obtain ⟨t2, ht2⟩ := Snake.move_head s w h hx hy t hseg
    obtain ⟨hxx, hyy⟩ := Snake.move_xy s w h hx hy t hseg
    rw [ht2] at hpt
    cases hpt
    rw [hxx, hyy]

theorem Snake.move_size (s : Snake) (w h : Int) : (s.move w h).size = s.size := by
  cases hseg : s.segments with
  | nil => rw [Snake.move_nil s w h hseg]
  | cons q t =>
    obtain ⟨hx, hy⟩ := q
    rcases Nat.eq_zero_or_pos s.pending_growth with hp | hp
    · rw [Snake.move_eq_pop s w h hx hy t hseg hp]
    · rw [Snake.move_eq_keep s w h hx hy t hseg hp]

theorem Snake.move_length_pending_zero (s : Snake) (w h : Int) (hx hy : Int)
    (t : List Pos) (hs : s.segments = (hx, hy) :: t) (hp : s.pending_growth = 0) :
    (s.move w h).segments.length = s.segments.length := by
  rw [Snake.move_eq_pop s w h hx hy t hs hp]
  simp only [List.length_cons, List.length_dropLast, hs]
  simp

theorem Snake.move_length_pending_pos (s : Snake) (w h : Int) (hx hy : Int)
    (t : List Pos) (hs : s.segments = (hx, hy) :: t) (hp : 0 < s.pending_growth) :
    (s.move w h).segments.length = s.segments.length + 1 := by
  rw [Snake.move_eq_keep s w h hx hy t hs hp]
  simp only [List.length_cons]

theorem Snake.shorten_head (s : Snake) (p q : Pos) (t : List Pos)
    (hs : s.segments = p :: q :: t) :
    ∃ t1, s.shorten.segments = p :: t1 := by
  rw [Snake.shorten_segments, hs,
    List.dropLast_cons_of_ne_nil (List.cons_ne_nil q t)]
  exact ⟨(q :: t).dropLast, rfl⟩

/-! Helper lemmas about the spawning helpers. -/

theorem choice_mem (str : Nat → Nat) (l : List Pos) (k : Nat) (p : Pos) (k1 : Nat)
    (hc : choice str l k = some (p, k1)) : p ∈ l := by
  cases l with
  | nil => exact absurd hc (by simp [choice])
  | cons a t =>
    simp only [choice, Option.some.injEq, Prod.mk.injEq] at hc
    obtain ⟨hp, -⟩ := hc
    rw [← hp]
    rw [List.getD_eq_getElem?_getD]
    cases hg : (a :: t)[str k % (a :: t).length]? with
    | none => simp only [Option.getD_none]; exact List.mem_cons_self a t
    | some b => simp only [Option.getD_some]; exact List.getElem?_mem hg

theorem choice_none (str : Nat → Nat) (k : Nat) : choice str [] k = none := rfl

theorem random_free_position_some (str : Nat → Nat) (blocked : List Pos) (k : Nat)
    (p : Pos) (k1 : Nat) (hc : random_free_position str blocked k = some (p, k1)) :
    p ∈ grid_positions ∧ p ∉ blocked := by
  have hmem := choice_mem str _ k p k1 hc
  rw [List.mem_filter] at hmem
  exact ⟨hmem.1, of_decide_eq_true hmem.2⟩

theorem random_free_position_none (str : Nat → Nat) (blocked : List Pos) (k : Nat)
    (hfull : ∀ p ∈ grid_positions, p ∈ blocked) :
    random_free_position str blocked k = none := by
  unfold random_free_position
  have hnil : grid_positions.filter (fun p => decide (p ∉ blocked)) = [] := by
    rw [List.filter_eq_nil_iff]
    intro p hp
    simp only [decide_eq_true_eq, Decidable.not_not]
    exact hfull p hp
  rw [hnil]
  rfl

theorem addRocks_length (str : Nat → Nat) :
    ∀ (n : Nat) (blocked rocks : List Pos) (k : Nat) (rocks1 : List Pos) (k1 : Nat),
      addRocks str n blocked rocks k = some (rocks1, k1) →
      rocks1.length = rocks.length + n := by
  intro n
  induction n with
  | zero =>
    intro blocked rocks k rocks1 k1 h
    simp only [addRocks, Option.some.injEq, Prod.mk.injEq] at h
    rw [← h.1]
    rfl
  | succ m ih =>
    intro blocked rocks k rocks1 k1 h
    simp only [addRocks] at h
    cases hr : random_free_position str blocked k with
    | none => rw [hr] at h; exact absurd h (by simp)
    | some q =>
      obtain ⟨p, k2⟩ := q
      rw [hr] at h
      have hlen2 := ih (p :: blocked) (rocks ++ [p]) k2 rocks1 k1 h
      rw [hlen2, List.length_append]
      simp only [List.length_singleton]
      omega

theorem addRocks_not_mem (str : Nat → Nat) (a : Pos) :
    ∀ (n : Nat) (blocked rocks : List Pos) (k : Nat) (rocks1 : List Pos) (k1 : Nat),
      a ∈ blocked → a ∉ rocks →
      addRocks str n blocked rocks k = some (rocks1, k1) → a ∉ rocks1 := by
  intro n
  induction n with
  | zero =>
    intro blocked rocks k rocks1 k1 hbl hro h
    simp only [addRocks, Option.some.injEq, Prod.mk.injEq] at h
    rw [← h.1]
    exact hro
  | succ m ih =>
    intro blocked rocks k rocks1 k1 hbl hro h
    simp only [addRocks] at h
    cases hr : random_free_position str blocked k with
    | none => rw [hr] at h; exact absurd h (by simp)
    | some q =>
      obtain ⟨p, k2⟩ := q
      rw [hr] at h
      have hpfree := (random_free_position_some str blocked k p k2 hr).2
      refine ih (p :: blocked) (rocks ++ [p]) k2 rocks1 k1 (List.mem_cons_of_mem p hbl) ?_ h
      intro hmem
      rcases List.mem_append.mp hmem with hmem | hmem
      · exact hro hmem
      · rw [List.mem_singleton] at hmem
        rw [hmem] at hbl
        exact hpfree hbl

theorem ensure_rock_count_length (str : Nat → Nat) (snake : Snake) (apple : Pos)
    (rocks : List Pos) (k : Nat) (rocks1 : List Pos) (k1 : Nat)
    (h : ensure_rock_count str snake apple rocks k = some (rocks1, k1)) :
    rocks1.length = ROCK_COUNT := by
  unfold ensure_rock_count at h
  cases ha : addRocks str (ROCK_COUNT - rocks.length)
      (snake.segments ++ apple :: rocks) rocks k with
  | none => rw [ha] at h; exact absurd h (by simp)
  | some q =>
    obtain ⟨rocks2, k2⟩ := q
    rw [ha] at h
    simp only [Option.some.injEq, Prod.mk.injEq] at h
    have hlen := addRocks_length str _ _ _ _ _ _ ha
    rw [← h.1, List.length_take, hlen]
    omega

theorem ensure_rock_count_apple (str : Nat → Nat) (snake : Snake) (apple : Pos)
    (rocks : List Pos) (k : Nat) (rocks1 : List Pos) (k1 : Nat)
    (hro : apple ∉ rocks)
    (h : ensure_rock_count str snake apple rocks k = some (rocks1, k1)) :
    apple ∉ rocks1 := by
  unfold ensure_rock_count at h
  cases ha : addRocks str (ROCK_COUNT - rocks.length)
      (snake.segments ++ apple :: rocks) rocks k with
  | none => rw [ha] at h; exact absurd h (by simp)
  | some q =>
    obtain ⟨rocks2, k2⟩ := q
    rw [ha] at h
    simp only [Option.some.injEq, Prod.mk.injEq] at h
    have hnot := addRocks_not_mem str apple _ _ _ _ _ _
      (List.mem_append_right snake.segments (List.mem_cons_self apple rocks)) hro ha
    rw [← h.1]
    intro hmem
    exact hnot (List.mem_of_mem_take hmem)

theorem spawn_apple_not_mem (str : Nat → Nat) (snake : Snake) (rocks : List Pos)
    (k : Nat) (a : Pos) (k1 : Nat)
    (h : spawn_apple str snake rocks k = some (a, k1)) :
    a ∉ snake.segments ∧ a ∉ rocks := by
  have := (random_free_position_some str _ k a k1 h).2
  rw [List.mem_append] at this
  push_neg at this
  exact this

theorem spawn_rocks_spec (str : Nat → Nat) (snake : Snake) (apple : Pos) (k : Nat)
    (rocks : List Pos) (k1 : Nat)
    (h : spawn_rocks str snake apple k = some (rocks, k1)) :
    rocks.length = ROCK_COUNT ∧ apple ∉ rocks := by
  constructor
  · have := addRocks_length str _ _ _ _ _ _ h
    simpa using this
  · exact addRocks_not_mem str apple _ _ _ _ _ _
      (List.mem_append_right snake.segments (List.mem_singleton.mpr rfl))
      (List.not_mem_nil apple) h

/-! Helper lemmas about resets and the rock collision handler. -/

theorem reset_objects_spec (str : Nat → Nat) (g : GState) (k : Nat) (g2 : GState)
    (k2 : Nat) (h : reset_objects str g k = some (g2, k2)) :
    g2.snake = create_snake ∧ g2.apple ∉ g2.snake.segments ∧ g2.apple ∉ g2.rocks ∧
      g2.rocks.length = ROCK_COUNT ∧ g2.score = g.score ∧ g2.running = g.running := by
  simp only [reset_objects] at h
  cases hap : spawn_apple str create_snake [] k with
  | none => simp only [hap] at h; exact Option.noConfusion h
  | some q =>
    obtain ⟨apple, k1⟩ := q
    simp only [hap] at h
    cases hro : spawn_rocks str create_snake apple k1 with
    | none => simp only [hro] at h; exact Option.noConfusion h
    | some q2 =>
      obtain ⟨rocks, k3⟩ := q2
      simp only [hro, Option.some.injEq, Prod.mk.injEq] at h
      obtain ⟨hg2, -⟩ := h
      have hax := spawn_apple_not_mem str create_snake [] k apple k1 hap
      have hrx := spawn_rocks_spec str create_snake apple k1 rocks k3 hro
      rw [← hg2]
      exact ⟨rfl, hax.1, hrx.2, hrx.1, rfl, rfl⟩

theorem reset_round_spec (str : Nat → Nat) (g : GState) (k : Nat) (g2 : GState)
    (k2 : Nat) (h : reset_round str g k = some (g2, k2)) :
    g2.snake = create_snake ∧ g2.apple ∉ g2.snake.segments ∧ g2.apple ∉ g2.rocks ∧
      g2.rocks.length = ROCK_COUNT ∧ g2.score = 0 ∧ g2.running = g.running := by
  have := reset_objects_spec str { g with score := 0 } k g2 k2 h
  exact this

theorem handle_rock_collision_cases (str : Nat → Nat) (g : GState) (k : Nat)
    (g2 : GState) (k2 : Nat) (h : handle_rock_collision str g k = some (g2, k2)) :
    (g2 = g ∧ k2 = k) ∨
      (g2.snake = g.snake.shorten ∧ g2.apple = g.apple ∧ g2.score = g.score ∧
        g2.running = g.running ∧
        ∃ i, ensure_rock_count str g.snake.shorten g.apple (g.rocks.eraseIdx i) k =
          some (g2.rocks, k2)) := by
  unfold handle_rock_collision at h
  cases hseg : g.snake.segments with
  | nil =>
    simp only [hseg, Option.some.injEq, Prod.mk.injEq] at h
    exact Or.inl ⟨h.1.symm, h.2.symm⟩
  | cons head t =>
    simp only [hseg] at h
    cases hidx : g.rocks.findIdx? (fun p => decide (p = head)) with
    | none =>
      simp only [hidx, Option.some.injEq, Prod.mk.injEq] at h
      exact Or.inl ⟨h.1.symm, h.2.symm⟩
    | some i =>
      simp only [hidx] at h
      cases hens : ensure_rock_count str g.snake.shorten g.apple (g.rocks.eraseIdx i) k with
      | none => simp only [hens] at h; exact Option.noConfusion h
      | some q =>
        obtain ⟨rocks2, k3⟩ := q
        simp only [hens, Option.some.injEq, Prod.mk.injEq] at h
        obtain ⟨hg2, hk2⟩ := h
        refine Or.inr ⟨?_, ?_, ?_, ?_, ⟨i, ?_⟩⟩
        · rw [← hg2]
        · rw [← hg2]
        · rw [← hg2]
        · rw [← hg2]
        · rw [← hg2, ← hk2]
          exact hens

theorem mem_dropLast_or_getLast? {α : Type} (l : List α) (p : α) (hp : p ∈ l) :
    p ∈ l.dropLast ∨ l.getLast? = some p := by
  induction l with
  | nil => exact absurd hp (List.not_mem_nil p)
  | cons a t ih =>
    cases t with
    | nil =>
      rw [List.mem_singleton] at hp
      right
      rw [hp]
      rfl
    | cons b t2 =>
      rcases List.mem_cons.mp hp with h | h
      · left
        rw [h, List.dropLast_cons_of_ne_nil (List.cons_ne_nil b t2)]
        exact List.mem_cons_self a _
      · rcases ih h with h2 | h2
        · left
          rw [List.dropLast_cons_of_ne_nil (List.cons_ne_nil b t2)]
          exact List.mem_cons_of_mem a h2
        · right
          rw [List.getLast?_cons_cons]
          exact h2

theorem addRocks_none (str : Nat → Nat) (n : Nat) (blocked rocks : List Pos) (k : Nat)
    (h : random_free_position str blocked k = none) :
    addRocks str (n + 1) blocked rocks k = none := by
  simp only [addRocks, h]

theorem ensure_rock_count_none (str : Nat → Nat) (snake : Snake) (apple : Pos)
    (rocks : List Pos) (k : Nat) (hlen : rocks.length < ROCK_COUNT)
    (h : random_free_position str (snake.segments ++ apple :: rocks) k = none) :
    ensure_rock_count str snake apple rocks k = none := by
  unfold ensure_rock_count
  obtain ⟨n, hn⟩ : ∃ n, ROCK_COUNT - rocks.length = n + 1 :=
    ⟨ROCK_COUNT - rocks.length - 1, by omega⟩
  rw [hn, addRocks_none str n _ rocks k h]

theorem handle_rock_collision_none (str : Nat → Nat) (g : GState) (k : Nat)
    (p : Pos) (t : List Pos) (i : Nat) (hseg : g.snake.segments = p :: t)
    (hidx : g.rocks.findIdx? (fun q => decide (q = p)) = some i)
    (hens : ensure_rock_count str g.snake.shorten g.apple (g.rocks.eraseIdx i) k = none) :
    handle_rock_collision str g k = none := by
  unfold handle_rock_collision
  simp only [hseg, hidx, hens]

theorem update_none_of_hrc_none (str : Nat → Nat) (g : GState) (k : Nat)
    (h : handle_rock_collision str
      { g with snake := g.snake.move (WIDTH : Nat) (play_height : Nat) } k = none) :
    update str g k = none := by
  unfold update
  simp only [h]

theorem findIdx?_ne_none_of_mem (l : List Pos) (p : Pos) (hmem : p ∈ l) :
    l.findIdx? (fun q => decide (q = p)) ≠ none := by
  intro hnone
  rw [List.findIdx?_eq_none_iff] at hnone
  have := hnone p hmem
  simp at this

theorem set_direction_accept (s : Snake) (dx dy : Int) (hne : s.segments ≠ [])
    (hcond : ¬(dx = -s.dx ∧ dy = -s.dy)) :
    s.set_direction dx dy = { s with dx := dx, dy := dy } := by
  unfold Snake.set_direction
  rw [if_neg hne, if_neg hcond]

theorem set_direction_reject (s : Snake) : s.set_direction (-s.dx) (-s.dy) = s := by
  unfold Snake.set_direction
  by_cases hne : s.segments = []
  · rw [if_pos hne]
  · rw [if_neg hne, if_pos ⟨rfl, rfl⟩]

theorem double_set_direction (s : Snake) (a1 b1 a2 b2 : Int) (hne : s.segments ≠ [])
    (h1 : ¬(a1 = -s.dx ∧ b1 = -s.dy)) (h2 : ¬(a2 = -a1 ∧ b2 = -b1)) :
    (s.set_direction a1 b1).set_direction a2 b2 = { s with dx := a2, dy := b2 } := by
  rw [set_direction_accept s a1 b1 hne h1]
  exact set_direction_accept _ a2 b2 hne h2

theorem colliderect_refl (x y c : Int) (hc : 0 < c) :
    colliderect x y c c x y c c = true := by
  simp only [colliderect, Bool.and_eq_true, decide_eq_true_eq]
  omega

theorem update_cases (str : Nat → Nat) (g : GState) (k : Nat) (g2 : GState) (k2 : Nat)
    (hu : update str g k = some (g2, k2)) :
    ∃ gm km, handle_rock_collision str
        { g with snake := g.snake.move (WIDTH : Nat) (play_height : Nat) } k =
          some (gm, km) ∧
      ((gm.snake.segments = [] ∨ gm.snake.collides_with_self = true) ∧
          reset_round str gm km = some (g2, k2) ∨
        gm.snake.segments ≠ [] ∧ gm.snake.collides_with_self = false ∧
        ∃ g3 k3 rocks4,
          ensure_rock_count str g3.snake g3.apple g3.rocks k3 = some (rocks4, k2) ∧
          g2 = { g3 with rocks := rocks4 } ∧
          (colliderect gm.snake.x gm.snake.y gm.snake.size gm.snake.size gm.apple.1
              gm.apple.2 (CELL : Nat) (CELL : Nat) = false ∧ g3 = gm ∧ k3 = km ∨
            colliderect gm.snake.x gm.snake.y gm.snake.size gm.snake.size gm.apple.1
              gm.apple.2 (CELL : Nat) (CELL : Nat) = true ∧
            ∃ apple3, spawn_apple str gm.snake.grow gm.rocks km = some (apple3, k3) ∧
              g3 = { gm with snake := gm.snake.grow, score := gm.score + 1,
                             apple := apple3 })) := by
  simp only [update] at hu
  cases hA : handle_rock_collision str
      { g with snake := g.snake.move (WIDTH : Nat) (play_height : Nat) } k with
  | none => simp only [hA] at hu; exact Option.noConfusion hu
  | some q =>
    obtain ⟨gm, km⟩ := q
    simp only [hA] at hu
    refine ⟨gm, km, rfl, ?_⟩
    by_cases hempty : gm.snake.segments = []
    · rw [if_pos hempty] at hu
      exact Or.inl ⟨Or.inl hempty, hu⟩
    · rw [if_neg hempty] at hu
      by_cases hcol : gm.snake.collides_with_self = true
      · rw [if_pos hcol] at hu
        exact Or.inl ⟨Or.inr hcol, hu⟩
      · rw [if_neg hcol] at hu
        refine Or.inr ⟨hempty, Bool.not_eq_true _ |>.mp hcol, ?_⟩
        by_cases heats : colliderect gm.snake.x gm.snake.y gm.snake.size gm.snake.size
            gm.apple.1 gm.apple.2 (CELL : Nat) (CELL : Nat) = true
        · rw [if_pos heats] at hu
          cases hap : spawn_apple str gm.snake.grow gm.rocks km with
          | none => simp only [hap] at hu; exact Option.noConfusion hu
          | some q2 =>
            obtain ⟨apple3, k3⟩ := q2
            simp only [hap] at hu
            cases hens : ensure_rock_count str gm.snake.grow apple3 gm.rocks k3 with
            | none => simp only [hens] at hu; exact Option.noConfusion hu
            | some q3 =>
              obtain ⟨rocks4, k4⟩ := q3
              simp only [hens, Option.some.injEq, Prod.mk.injEq] at hu
              refine ⟨{ gm with snake := gm.snake.grow, score := gm.score + 1, apple := apple3 }, k3, rocks4, ?_, ?_, Or.inr ⟨heats, apple3, rfl, rfl⟩⟩
              · rw [← hu.2]
                exact hens
              · rw [← hu.1]
        · rw [if_neg heats] at hu
          cases hens : ensure_rock_count str gm.snake gm.apple gm.rocks km with
          | none => simp only [hens] at hu; exact Option.noConfusion hu
          | some q3 =>
            obtain ⟨rocks4, k4⟩ := q3
            simp only [hens, Option.some.injEq, Prod.mk.injEq] at hu
            exact ⟨gm, km, rocks4, by rw [← hu.2]; exact hens, by rw [← hu.1],
              Or.inl ⟨Bool.not_eq_true _ |>.mp heats, rfl, rfl⟩⟩

/-! Claim theorems. -/

/-- C3 counterexample: the configured cell size does not divide both the
configured grid dimensions; HEIGHT = 490 is not a multiple of CELL = 20. -/
theorem cell_divides_counterexample : ¬ (WIDTH % CELL = 0 ∧ HEIGHT % CELL = 0) := by
  decide

/-- C3 amended: CELL divides WIDTH, but HEIGHT leaves remainder 10; the game
instead derives play_height = 480, which CELL does divide, giving a 32 by
24 cell grid. -/
theorem cell_divides_amended :
    WIDTH % CELL = 0 ∧ HEIGHT % CELL = 10 ∧ play_height % CELL = 0 ∧
      play_height = 480 ∧ WIDTH / CELL = 32 ∧ play_height / CELL = 24 := by
  decide

/-- C10: for any head position and any axis-aligned step of magnitude CELL,
the moved head stays within the bounds [0, width) times [0, height). -/
theorem wrap_within_bounds (s : Snake) (w h : Int) (hw : 0 < w) (hh : 0 < h)
    (hx hy : Int) (t : List Pos) (hs : s.segments = (hx, hy) :: t)
    (hdir : (s.dx = (CELL : Int) ∨ s.dx = -(CELL : Int)) ∧ s.dy = 0 ∨
      s.dx = 0 ∧ (s.dy = (CELL : Int) ∨ s.dy = -(CELL : Int))) :
    (s.move w h).segments.head? = some ((hx + s.dx) % w, (hy + s.dy) % h) ∧
      0 ≤ (hx + s.dx) % w ∧ (hx + s.dx) % w < w ∧
      0 ≤ (hy + s.dy) % h ∧ (hy + s.dy) % h < h := by
  obtain ⟨t1, ht1⟩ := Snake.move_head s w h hx hy t hs
  exact ⟨by rw [ht1]; rfl, Int.emod_nonneg _ (ne_of_gt hw), Int.emod_lt_of_pos _ hw,
    Int.emod_nonneg _ (ne_of_gt hh), Int.emod_lt_of_pos _ hh⟩

/-- C10 witness: the snake at (620, 240) heading right wraps to x = 0. -/
theorem wrap_within_bounds_witness :
    (sW10.move 640 480).segments.head? = some (0, 240) ∧
      (0 : Int) ≤ 0 ∧ (0 : Int) < 640 ∧ (0 : Int) ≤ 240 ∧ (240 : Int) < 480 :=
  wrap_within_bounds sW10 640 480 (by decide) (by decide) 620 240 [] rfl
    (Or.inl ⟨Or.inl rfl, rfl⟩)

/-- C6 counterexample: for a snake that already has pending growth, grow
followed by move does not make the body longer than move alone, because the
plain move also consumes pending growth and keeps the tail. -/
theorem growth_deferral_counterexample :
    ¬ ((sC6.grow.move 640 480).segments.length =
      (sC6.move 640 480).segments.length + 1) := by
  decide

/-- C6 amended: for every nonempty snake with no pending growth, grow
followed by one move keeps the whole old body behind the new head (one
longer than move alone), and the move consumes the growth. -/
theorem growth_deferral (s : Snake) (w h : Int) (hx hy : Int) (t : List Pos)
    (hs : s.segments = (hx, hy) :: t) (hp : s.pending_growth = 0) :
    (s.grow.move w h).segments = ((hx + s.dx) % w, (hy + s.dy) % h) :: s.segments ∧
      (s.grow.move w h).segments.length = (s.move w h).segments.length + 1 ∧
      (s.grow.move w h).pending_growth = 0 := by
  have hgs : s.grow.segments = (hx, hy) :: t := hs
  have hgp : 0 < s.grow.pending_growth := Nat.succ_pos s.pending_growth
  have hkeep := Snake.move_eq_keep s.grow w h hx hy t hgs hgp
  refine ⟨by rw [hkeep]; rfl, ?_, ?_⟩
  · rw [hkeep, Snake.move_length_pending_zero s w h hx hy t hs hp]
    rfl
  · rw [hkeep]
    show s.pending_growth + 1 - 1 = 0
    omega

/-- C6 witness: the one-segment snake at (100, 100) after grow and one move
occupies both the new and the old cell. -/
theorem growth_deferral_witness :
    (sW6.grow.move 640 480).segments = [(120, 100), (100, 100)] ∧
      (sW6.grow.move 640 480).segments.length = (sW6.move 640 480).segments.length + 1 ∧
      (sW6.grow.move 640 480).pending_growth = 0 :=
  growth_deferral sW6 640 480 100 100 [] rfl rfl

/-- C5: after any successfully completed tick the rock list has exactly
ROCK_COUNT entries, on the normal path and on the round-reset path. -/
theorem tick_restores_rock_count (str : Nat → Nat) (g : GState) (k : Nat)
    (g2 : GState) (k2 : Nat) (hu : update str g k = some (g2, k2)) :
    g2.rocks.length = ROCK_COUNT := by
  obtain ⟨gm, km, hA, hrest⟩ := update_cases str g k g2 k2 hu
  rcases hrest with ⟨-, hreset⟩ | ⟨-, -, g3, k3, rocks4, hens, hg2, -⟩
  · exact (reset_round_spec str gm km g2 k2 hreset).2.2.2.1
  · rw [hg2]
    exact ensure_rock_count_length str g3.snake g3.apple g3.rocks k3 rocks4 k2 hens

/-- C5 witness: one concrete tick from gW ends with exactly ROCK_COUNT rocks. -/
theorem tick_restores_rock_count_witness : gW2.rocks.length = ROCK_COUNT :=
  tick_restores_rock_count strW gW 0 gW2 0 (by decide)

/-- C9: a round reset zeroes the score, recreates the snake at the canonical
start (320, 240) heading right with one segment, restores exactly
ROCK_COUNT rocks, and leaves the running flag untouched. -/
theorem round_reset_state (str : Nat → Nat) (g : GState) (k : Nat) (g2 : GState)
    (k2 : Nat) (hres : reset_round str g k = some (g2, k2)) :
    g2.score = 0 ∧ g2.snake = create_snake ∧
      create_snake.segments = [((320 : Int), (240 : Int))] ∧
      create_snake.dx = (CELL : Int) ∧ create_snake.dy = 0 ∧
      g2.snake.segments.length = 1 ∧ g2.rocks.length = ROCK_COUNT ∧
      g2.running = g.running := by
  obtain ⟨hsn, hai, har, hrl, hsc, hru⟩ := reset_round_spec str g k g2 k2 hres
  exact ⟨hsc, hsn, by decide, by decide, by decide, by rw [hsn]; decide, hrl, hru⟩

set_option maxRecDepth 20000 in
/-- C9 witness: a concrete reset from gW produces the canonical state. -/
theorem round_reset_state_witness :
    gWreset.score = 0 ∧ gWreset.snake = create_snake ∧
      create_snake.segments = [((320 : Int), (240 : Int))] ∧
      create_snake.dx = (CELL : Int) ∧ create_snake.dy = 0 ∧
      gWreset.snake.segments.length = 1 ∧ gWreset.rocks.length = ROCK_COUNT ∧
      gWreset.running = gW.running :=
  round_reset_state strW gW 0 gWreset 4 (by decide)

/-- C2 amended: when every grid cell is blocked, the random spawn helper
fails (random.choice on the empty free list raises, modelled as none); no
caller of the helper catches this, so the failure escapes the tick. -/
theorem free_exhaustion_unhandled (str : Nat → Nat) (blocked : List Pos) (k : Nat)
    (hfull : ∀ p ∈ grid_positions, p ∈ blocked) :
    random_free_position str blocked k = none :=
  random_free_position_none str blocked k hfull

/-- C2 witness: blocking every grid position makes the spawn helper fail. -/
theorem free_exhaustion_unhandled_witness :
    random_free_position strW grid_positions 0 = none :=
  free_exhaustion_unhandled strW grid_positions 0 (fun p hp => hp)

/-- C7: set_direction with the exact reverse of the current direction is a
no-op, a subsequent move still advances the head by the original direction,
and set_direction on an empty snake is a no-op. -/
theorem no_reverse (s : Snake) (w h : Int) :
    s.set_direction (-s.dx) (-s.dy) = s ∧
      (s.set_direction (-s.dx) (-s.dy)).move w h = s.move w h ∧
      (∀ hx hy t, s.segments = (hx, hy) :: t →
        (s.move w h).segments.head? = some ((hx + s.dx) % w, (hy + s.dy) % h)) ∧
      (s.segments = [] → ∀ dx dy, s.set_direction dx dy = s) := by
  refine ⟨set_direction_reject s, by rw [set_direction_reject s], ?_, ?_⟩
  · intro hx hy t hs
    obtain ⟨t1, ht1⟩ := Snake.move_head s w h hx hy t hs
    rw [ht1]
    rfl
  · intro hnil dx dy
    unfold Snake.set_direction
    rw [if_pos hnil]

/-- C7 witness: reversing the canonical start snake is refused, and its move
still goes one cell right. -/
theorem no_reverse_witness :
    sW7.set_direction (-sW7.dx) (-sW7.dy) = sW7 ∧
      (sW7.set_direction (-sW7.dx) (-sW7.dy)).move 640 480 = sW7.move 640 480 ∧
      (sW7.move 640 480).segments.head? = some (340, 240) := by
  obtain ⟨h1, h2, h3, -⟩ := no_reverse sW7 640 480
  exact ⟨h1, h2, h3 320 240 [] rfl⟩

/-- C1 counterexample: a snake of length 2 with no pending growth moves onto
a rock; after the completed tick its length is 1, not 2 as claimed. -/
theorem rock_penalty_counterexample :
    gC1.snake.segments.length = 2 ∧
      (update strW gC1 0).map (fun q => q.1.snake.segments.length) = some 1 ∧
      (update strW gC1 0).map (fun q => q.1.snake.segments.length) ≠ some 2 := by
  decide

/-- C1 amended: when the moved head coincides with a rock, the handler
shortens the snake, so the net effect of the move followed by the shorten
on a snake without pending growth is one segment fewer, not an unchanged
length. -/
theorem rock_penalty (str : Nat → Nat) (g : GState) (k : Nat) (g2 : GState)
    (k2 : Nat) (hp : g.snake.pending_growth = 0)
    (hhit : ∃ p t, (g.snake.move (WIDTH : Nat) (play_height : Nat)).segments = p :: t ∧
      p ∈ g.rocks)
    (hhrc : handle_rock_collision str
      { g with snake := g.snake.move (WIDTH : Nat) (play_height : Nat) } k =
        some (g2, k2)) :
    g2.snake = (g.snake.move (WIDTH : Nat) (play_height : Nat)).shorten ∧
      g2.snake.segments.length + 1 = g.snake.segments.length := by
  obtain ⟨p, t, hpt, hpro⟩ := hhit
  cases hseg : g.snake.segments with
  | nil =>
    rw [Snake.move_nil g.snake _ _ hseg, hseg] at hpt
    exact absurd hpt.symm (List.cons_ne_nil p t)
  | cons q t0 =>
    obtain ⟨qx, qy⟩ := q
    have hcase := handle_rock_collision_cases str
      { g with snake := g.snake.move (WIDTH : Nat) (play_height : Nat) } k g2 k2 hhrc
    have hsn : g2.snake = (g.snake.move (WIDTH : Nat) (play_height : Nat)).shorten := by
      rcases hcase with ⟨h1, -⟩ | ⟨h2, -⟩
      · exfalso
        unfold handle_rock_collision at hhrc
        simp only [hpt] at hhrc
        cases hidx : ({ g with
            snake := g.snake.move (WIDTH : Nat) (play_height : Nat) } :
              GState).rocks.findIdx? (fun r => decide (r = p)) with
        | none => exact absurd hidx (findIdx?_ne_none_of_mem _ p hpro)
        | some i =>
          simp only [hidx] at hhrc
          cases hens : ensure_rock_count str
              ({ g with snake := g.snake.move (WIDTH : Nat) (play_height : Nat) } :
                GState).snake.shorten g.apple (g.rocks.eraseIdx i) k with
          | none => simp only [hens] at hhrc; exact Option.noConfusion hhrc
          | some q2 =>
            obtain ⟨rocks2, k3⟩ := q2
            simp only [hens, Option.some.injEq, Prod.mk.injEq] at hhrc
            have hbad := congrArg GState.snake hhrc.1
            rw [h1] at hbad
            have hbad2 := congrArg Snake.segments hbad
            simp only [Snake.shorten_segments, hpt] at hbad2
            have hlen := congrArg List.length hbad2
            simp only [List.length_cons, List.length_dropLast] at hlen
            omega
      · exact h2
    refine ⟨hsn, ?_⟩
    rw [hsn, Snake.shorten_segments, List.length_dropLast,
      Snake.move_length_pending_zero g.snake _ _ qx qy t0 hseg hp, hseg]
    simp

set_option maxRecDepth 20000 in
/-- C1 witness: the concrete length-2 snake of gC1 strikes the rock and ends
the collision handling one segment shorter. -/
theorem rock_penalty_witness :
    gC1post.snake = (gC1.snake.move (WIDTH : Nat) (play_height : Nat)).shorten ∧
      gC1post.snake.segments.length + 1 = gC1.snake.segments.length :=
  rock_penalty strW gC1 0 gC1post 1 rfl
    ⟨(320, 240), [(300, 240)], by decide, by decide⟩ (by decide)

/-- C8: the no-reverse guard only checks the latest buffered direction, so
for every axis-aligned direction two buffered key presses (a perpendicular
one, then the reverse) leave the snake heading exactly opposite to its last
move, and the next move goes backwards. -/
theorem buffered_reverse_bypass (s : Snake) (w h : Int) (hne : s.segments ≠ []) :
    (s.dx = (CELL : Int) → s.dy = 0 →
      handle_input s [Command.up, Command.left] = { s with dx := -s.dx, dy := -s.dy }) ∧
    (s.dx = -(CELL : Int) → s.dy = 0 →
      handle_input s [Command.up, Command.right] = { s with dx := -s.dx, dy := -s.dy }) ∧
    (s.dx = 0 → s.dy = (CELL : Int) →
      handle_input s [Command.left, Command.up] = { s with dx := -s.dx, dy := -s.dy }) ∧
    (s.dx = 0 → s.dy = -(CELL : Int) →
      handle_input s [Command.left, Command.down] = { s with dx := -s.dx, dy := -s.dy }) ∧
    (∀ hx hy t, s.segments = (hx, hy) :: t →
      (({ s with dx := -s.dx, dy := -s.dy } : Snake).move w h).segments.head? =
        some ((hx + -s.dx) % w, (hy + -s.dy) % h)) := by
  refine ⟨?_, ?_, ?_, ?_, ?_⟩
  · intro hdx hdy
    show (s.set_direction 0 (-(CELL : Int))).set_direction (-(CELL : Int)) 0 = _
    rw [double_set_direction s 0 (-(CELL : Int)) (-(CELL : Int)) 0 hne
      (by rw [hdx, hdy]; decide) (by decide), hdx, hdy]
    norm_num
  · intro hdx hdy
    show (s.set_direction 0 (-(CELL : Int))).set_direction ((CELL : Int)) 0 = _
    rw [double_set_direction s 0 (-(CELL : Int)) ((CELL : Int)) 0 hne
      (by rw [hdx, hdy]; decide) (by decide), hdx, hdy]
    norm_num
  · intro hdx hdy
    show (s.set_direction (-(CELL : Int)) 0).set_direction 0 (-(CELL : Int)) = _
    rw [double_set_direction s (-(CELL : Int)) 0 0 (-(CELL : Int)) hne
      (by rw [hdx, hdy]; decide) (by decide), hdx, hdy]
    norm_num
  · intro hdx hdy
    show (s.set_direction (-(CELL : Int)) 0).set_direction 0 ((CELL : Int)) = _
    rw [double_set_direction s (-(CELL : Int)) 0 0 ((CELL : Int)) hne
      (by rw [hdx, hdy]; decide) (by decide), hdx, hdy]
    norm_num
  · intro hx hy t hs
    obtain ⟨t1, ht1⟩ :=
      Snake.move_head ({ s with dx := -s.dx, dy := -s.dy } : Snake) w h hx hy t hs
    rw [ht1]
    rfl

/-- C8 witness: a snake heading right is left heading exactly left after the
up-then-left burst, and its next move decreases x by one cell. -/
theorem buffered_reverse_bypass_witness :
    handle_input sW7 [Command.up, Command.left] =
      { sW7 with dx := -sW7.dx, dy := -sW7.dy } ∧
    (({ sW7 with dx := -sW7.dx, dy := -sW7.dy } : Snake).move 640 480).segments.head? =
      some (300, 240) := by
  obtain ⟨h1, -, -, -, h5⟩ := buffered_reverse_bypass sW7 640 480 (by decide)
  exact ⟨h1 rfl rfl, h5 320 240 [] rfl⟩

set_option maxRecDepth 100000 in
set_option maxHeartbeats 1600000 in
/-- C2 counterexample: on the fully occupied grid of gFull the tick moves
the head onto a rock, the top-up finds no free cell, and the engine does
not handle the failure: the whole tick aborts (the process would crash)
instead of skipping the spawn. -/
theorem full_grid_crash : update strW gFull 0 = none := by
  have hshort : (gFull.snake.move (WIDTH : Nat) (play_height : Nat)).shorten.segments =
      ((0 : Int), (460 : Int)) :: ((620 : Int), (460 : Int)) ::
        grid_positions.dropLast.dropLast := by
    decide
  have hlast1 : grid_positions.getLast? = some ((620 : Int), (460 : Int)) := by decide
  have hlast2 : grid_positions.dropLast.getLast? = some ((620 : Int), (440 : Int)) := by
    decide
  have hfull : ∀ p ∈ grid_positions,
      p ∈ ((gFull.snake.move (WIDTH : Nat) (play_height : Nat)).shorten.segments ++
        ((620 : Int), (440 : Int)) :: [((0 : Int), (0 : Int)), ((20 : Int), (0 : Int))]) := by
    intro p hp
    rw [hshort]
    rcases mem_dropLast_or_getLast? grid_positions p hp with h1 | h1
    · rcases mem_dropLast_or_getLast? grid_positions.dropLast p h1 with h2 | h2
      · exact List.mem_append_left _ (List.mem_cons_of_mem _ (List.mem_cons_of_mem _ h2))
      · rw [hlast2] at h2
        injection h2 with h2
        rw [← h2]
        exact List.mem_append_right _ (List.mem_cons_self _ _)
    · rw [hlast1] at h1
      injection h1 with h1
      rw [← h1]
      exact List.mem_append_left _ (List.mem_cons_of_mem _ (List.mem_cons_self _ _))
  have hrfp : random_free_position strW
      ((gFull.snake.move (WIDTH : Nat) (play_height : Nat)).shorten.segments ++
        ((620 : Int), (440 : Int)) :: [((0 : Int), (0 : Int)), ((20 : Int), (0 : Int))])
      0 = none :=
    random_free_position_none strW _ 0 hfull
  have hens : ensure_rock_count strW
      (gFull.snake.move (WIDTH : Nat) (play_height : Nat)).shorten
      ((620 : Int), (440 : Int)) [((0 : Int), (0 : Int)), ((20 : Int), (0 : Int))] 0 =
        none :=
    ensure_rock_count_none strW _ _ _ 0 (by decide) hrfp
  have hm_seg : (gFull.snake.move (WIDTH : Nat) (play_height : Nat)).segments =
      ((0 : Int), (460 : Int)) :: ((620 : Int), (460 : Int)) :: grid_positions.dropLast := by
    decide
  have hidx : List.findIdx? (fun q => decide (q = ((0 : Int), (460 : Int))))
      [((0 : Int), (460 : Int)), ((0 : Int), (0 : Int)), ((20 : Int), (0 : Int))] =
        some 0 := by decide
  exact update_none_of_hrc_none strW gFull 0
    (handle_rock_collision_none strW
      { gFull with snake := gFull.snake.move (WIDTH : Nat) (play_height : Nat) } 0
      ((0 : Int), (460 : Int))
      (((620 : Int), (460 : Int)) :: grid_positions.dropLast) 0 hm_seg hidx hens)

/-- C4: a completed tick preserves the exclusion invariant: the apple sits
on no snake segment and no rock afterwards, both on the normal path (eating
and respawning included) and after a round reset. -/
theorem tick_preserves_apple_exclusion (str : Nat → Nat) (g : GState) (k : Nat)
    (g2 : GState) (k2 : Nat) (hsize : g.snake.size = (CELL : Int))
    (hinv : appleInv g) (hu : update str g k = some (g2, k2)) :
    appleInv g2 ∧ g2.snake.size = (CELL : Int) := by
  obtain ⟨gm, km, hA, hrest⟩ := update_cases str g k g2 k2 hu
  have hmove_size : (g.snake.move (WIDTH : Nat) (play_height : Nat)).size = (CELL : Int) := by
    rw [Snake.move_size]; exact hsize
  have hrc := handle_rock_collision_cases str
    { g with snake := g.snake.move (WIDTH : Nat) (play_height : Nat) } k gm km hA
  have hgm_apple : gm.apple = g.apple := by
    rcases hrc with ⟨h1, -⟩ | ⟨-, h2, -⟩
    · rw [h1]
    · exact h2
  have hgm_size : gm.snake.size = (CELL : Int) := by
    rcases hrc with ⟨h1, -⟩ | ⟨h2, -⟩
    · rw [h1]; exact hmove_size
    · rw [h2, Snake.shorten_size]; exact hmove_size
  have hgm_rocks : g.apple ∉ gm.rocks := by
    rcases hrc with ⟨h1, -⟩ | ⟨-, -, -, -, i, hens⟩
    · rw [h1]; exact hinv.2
    · exact ensure_rock_count_apple str _ _ _ k gm.rocks km
        (fun hmem => hinv.2 (List.eraseIdx_subset _ i hmem)) hens
  have hgm_headOK : headOK gm.snake := by
    rcases hrc with ⟨h1, -⟩ | ⟨h2, -⟩
    · rw [h1]; exact Snake.move_headOK g.snake _ _
    · rw [h2]; exact Snake.shorten_headOK _
  rcases hrest with ⟨-, hreset⟩ | ⟨hne, -, g3, k3, rocks4, hens4, hg2, hcase⟩
  · obtain ⟨hsn, hai, har, -, -, -⟩ := reset_round_spec str gm km g2 k2 hreset
    refine ⟨⟨hai, har⟩, ?_⟩
    rw [hsn]
    rfl
  · cases hseg : g.snake.segments with
    | nil =>
      exfalso
      apply hne
      rcases hrc with ⟨h1, -⟩ | ⟨h2, -⟩
      · rw [h1]
        show (g.snake.move (WIDTH : Nat) (play_height : Nat)).segments = []
        rw [Snake.move_nil g.snake _ _ hseg]
        exact hseg
      · rw [h2]
        show ((g.snake.move (WIDTH : Nat) (play_height : Nat)).shorten).segments = []
        rw [Snake.move_nil g.snake _ _ hseg, Snake.shorten_segments, hseg]
        rfl
    | cons q t0 =>
      obtain ⟨qx, qy⟩ := q
      obtain ⟨t1, ht1⟩ := Snake.move_head g.snake (WIDTH : Nat) (play_height : Nat)
        qx qy t0 hseg
      have hgm_head : ∃ t2, gm.snake.segments =
          ((qx + g.snake.dx) % (WIDTH : Nat), (qy + g.snake.dy) % (play_height : Nat))
            :: t2 := by
        rcases hrc with ⟨h1, -⟩ | ⟨h2, -⟩
        · exact ⟨t1, by rw [h1]; exact ht1⟩
        · cases t1 with
          | nil =>
            exfalso
            apply hne
            rw [h2]
            show ((g.snake.move (WIDTH : Nat) (play_height : Nat)).shorten).segments = []
            rw [Snake.shorten_segments, ht1]
            rfl
          | cons r t1x =>
            obtain ⟨t2, ht2⟩ := Snake.shorten_head
              (g.snake.move (WIDTH : Nat) (play_height : Nat)) _ r t1x ht1
            exact ⟨t2, by rw [h2]; exact ht2⟩
      obtain ⟨t2, ht2⟩ := hgm_head
      have hmem_gm : ∀ a ∈ gm.snake.segments,
          a = ((qx + g.snake.dx) % (WIDTH : Nat), (qy + g.snake.dy) % (play_height : Nat)) ∨
            a ∈ g.snake.segments := by
        intro a ha
        rcases hrc with ⟨h1, -⟩ | ⟨h2, -⟩
        · refine Snake.move_mem g.snake _ _ qx qy t0 hseg a ?_
          rw [h1] at ha
          exact ha
        · rw [h2, Snake.shorten_segments] at ha
          exact Snake.move_mem g.snake _ _ qx qy t0 hseg a (List.dropLast_subset _ ha)
      rcases hcase with ⟨heats_false, hg3, hk3⟩ | ⟨heats_true, apple3, hap, hg3⟩
      · have hhead_xy : ((qx + g.snake.dx) % (WIDTH : Nat),
            (qy + g.snake.dy) % (play_height : Nat)) = (gm.snake.x, gm.snake.y) :=
          hgm_headOK _ t2 ht2
        have happle_ne : g.apple ≠ (gm.snake.x, gm.snake.y) := by
          intro hEq
          have hcoll : colliderect gm.snake.x gm.snake.y gm.snake.size gm.snake.size
              gm.apple.1 gm.apple.2 (CELL : Nat) (CELL : Nat) = true := by
            rw [hgm_apple, hEq, hgm_size]
            exact colliderect_refl gm.snake.x gm.snake.y (CELL : Int) (by decide)
          rw [heats_false] at hcoll
          exact Bool.false_ne_true hcoll
        have hg2snake : g2.snake = gm.snake := by rw [hg2, hg3]
        have hg2apple : g2.apple = g.apple := by rw [hg2, hg3]; exact hgm_apple
        have hg2rocks : g2.rocks = rocks4 := by rw [hg2]
        have hg3apple : g3.apple = g.apple := by rw [hg3]; exact hgm_apple
        have hg3rocks2 : g3.apple ∉ g3.rocks := by
          rw [hg3apple, hg3]
          exact hgm_rocks
        refine ⟨⟨?_, ?_⟩, ?_⟩
        · rw [hg2apple, hg2snake]
          intro hmem
          rcases hmem_gm _ hmem with hEq | hEq
          · exact happle_ne (hEq.trans hhead_xy)
          · exact hinv.1 hEq
        · rw [hg2apple, hg2rocks, ← hg3apple]
          exact ensure_rock_count_apple str g3.snake g3.apple g3.rocks k3 rocks4 k2
            hg3rocks2 hens4
        · rw [hg2snake]
          exact hgm_size
      · have hsp := spawn_apple_not_mem str gm.snake.grow gm.rocks km apple3 k3 hap
        have hg3apple : g3.apple = apple3 := by rw [hg3]
        have hg3snake : g3.snake = gm.snake.grow := by rw [hg3]
        have hg3rocks : g3.rocks = gm.rocks := by rw [hg3]
        have h4 : g3.apple ∉ rocks4 :=
          ensure_rock_count_apple str g3.snake g3.apple g3.rocks k3 rocks4 k2
            (by rw [hg3apple, hg3rocks]; exact hsp.2) hens4
        have hg2snake : g2.snake = gm.snake.grow := by rw [hg2]; exact hg3snake
        have hg2apple : g2.apple = apple3 := by rw [hg2]; exact hg3apple
        have hg2rocks : g2.rocks = rocks4 := by rw [hg2]
        refine ⟨⟨?_, ?_⟩, ?_⟩
        · rw [hg2apple, hg2snake]
          exact hsp.1
        · rw [hg2apple, hg2rocks, ← hg3apple]
          exact h4
        · rw [hg2snake, Snake.grow_size]
          exact hgm_size

/-- C4 witness: one concrete tick from gW keeps the apple off the snake and
the rocks. -/
theorem tick_preserves_apple_exclusion_witness :
    appleInv gW2 ∧ gW2.snake.size = (CELL : Int) :=
  tick_preserves_apple_exclusion strW gW 0 gW2 0 rfl
    ⟨by decide, by decide⟩ (by decide)

end SnakeCodex
